import Mathlib

/-!
Verification of the Polymarket paper-trading engine
(`polymarket_trader.py`, class `PolymarketTraderV2`).

Prices, stakes and PnL are modelled as rationals (`ℚ`); wall-clock
time as a natural number of seconds (`datetime.now()` is an external
input, passed in explicitly).  The per-strategy circuit-breaker store
(a JSON object keyed by strategy name) and the market-history store
(keyed by market id) are modelled as association lists with Python
dict update semantics.  File persistence (`save_trades`,
`save_circuit_breaker`, `save_market_history`), the Telegram alert
subprocess and the HTTP market-data fetch are external side effects:
persistence is the identity on the in-memory state, the alert is
fire-and-forget, and market data enters as explicit parameters.
-/

namespace Polymarket

/-- Status field of a trade record: the source uses the strings
"OPEN" and "CLOSED". -/
inductive TradeStatus where
  | OPEN
  | CLOSED
deriving DecidableEq, Repr

/-- One trade record, as built by `open_position` (lines 421-441):
keys id, market_id, question, strategy, entry_price, entry_time,
position_size, exit_price, exit_time, pnl, status. -/
structure Trade where
  id : String
  market_id : String
  question : String
  strategy : String
  entry_price : ℚ
  entry_time : Nat
  position_size : ℚ
  exit_price : Option ℚ
  exit_time : Option Nat
  pnl : Option ℚ
  status : TradeStatus
deriving DecidableEq, Repr

/-- Per-strategy circuit-breaker record: consecutive_losses,
circuit_broken, broken_until (an ISO timestamp in the source,
a time in seconds here). -/
structure BreakerState where
  consecutive_losses : Nat
  circuit_broken : Bool
  broken_until : Option Nat
deriving DecidableEq, Repr

/-- The default breaker record the source creates for a strategy that
has no entry yet (lines 224-229, 277-282). -/
def defaultBreaker : BreakerState :=
  { consecutive_losses := 0, circuit_broken := false, broken_until := none }

/-- The circuit-breaker store: a JSON object keyed by strategy name. -/
abbrev BreakerMap := List (String × BreakerState)

/-- Dict lookup on an association list. -/
def lookupA {α : Type} : List (String × α) → String → Option α
  | [], _ => none
  | (k, v) :: rest, key => if k = key then some v else lookupA rest key

/-- Dict assignment on an association list: replace the first binding
of the key, or append a fresh one. -/
def setA {α : Type} : List (String × α) → String → α → List (String × α)
  | [], key, v => [(key, v)]
  | (k, w) :: rest, key, v =>
      if k = key then (key, v) :: rest else (k, w) :: setA rest key v

/-- Constant `self.circuit_breaker_threshold = 3` (line 64). -/
def circuit_breaker_threshold : Nat := 3

/-- Lockout `timedelta(hours=24)` in seconds (line 237). -/
def lockout_seconds : Nat := 86400

/-- Constant `self.base_position_size = 10.00` (line 37). -/
def base_position_size : ℚ := 10

/-- Constant `self.max_position_size = 100.00` (line 38). -/
def max_position_size : ℚ := 100

/-- Constant `self.min_position_size = 5.00` (line 39). -/
def min_position_size : ℚ := 5

/-- Source `calculate_win_rate` (lines 75-81): fraction of CLOSED trades with
positive pnl; 0.5 when no trade is closed.  `t.get("pnl", 0)` is
modelled by `Option.getD 0`. -/
def calculate_win_rate (trades : List Trade) : ℚ :=
  let closed := trades.filter (fun t => t.status = TradeStatus.CLOSED)
  if closed.isEmpty then 1/2
  else (closed.countP (fun t => decide (t.pnl.getD 0 > 0)) : ℚ) / (closed.length : ℚ)

/-- Source `calculate_position_size` (lines 83-90): scales the base size by
the overall win rate and clamps to `[min, max]`.  The `strategy`
argument is accepted and ignored, as in the source. -/
def calculate_position_size (win_rate : ℚ) (_strategy : String) : ℚ :=
  let win_rate_bonus := (win_rate - 1/2) * 10
  let size := base_position_size + win_rate_bonus * base_position_size
  max min_position_size (min max_position_size size)

/-- Source `record_loss` (lines 222-243): create the entry if absent,
increment consecutive_losses, and when it reaches the threshold set
circuit_broken and broken_until = now + 24h.  The Telegram alert is an
external fire-and-forget effect and is not modelled. -/
def record_loss (cb : BreakerMap) (strategy : String) (now : Nat) : BreakerMap :=
  let st0 := (lookupA cb strategy).getD defaultBreaker
  let st1 := { st0 with consecutive_losses := st0.consecutive_losses + 1 }
  let st2 :=
    if st1.consecutive_losses ≥ circuit_breaker_threshold then
      { st1 with circuit_broken := true, broken_until := some (now + lockout_seconds) }
    else st1
  setA cb strategy st2

/-- Source `record_win` (lines 275-289): create the entry if absent, then
reset consecutive_losses, circuit_broken and broken_until. -/
def record_win (cb : BreakerMap) (strategy : String) : BreakerMap :=
  setA cb strategy defaultBreaker

/-- Source `check_circuit_breaker_expired` (lines 163-188): returns whether
the strategy is (still) broken, resetting the record as a side effect
when `now` is strictly past broken_until.  Returns the possibly
updated store alongside the boolean. -/
def check_circuit_breaker_expired (cb : BreakerMap) (strategy : String) (now : Nat) :
    Bool × BreakerMap :=
  match lookupA cb strategy with
  | none => (false, cb)
  | some st =>
    if st.circuit_broken = false then (false, cb)
    else
      match st.broken_until with
      | none => (false, cb)
      | some bu =>
        if now > bu then (false, setA cb strategy defaultBreaker)
        else (st.circuit_broken, cb)

/-- The in-memory trader state that `close_position` and the cycle
mutate: `self.trades`, `self.circuit_breaker_state`, `self.win_rate`. -/
structure TraderState where
  trades : List Trade
  breakers : BreakerMap
  win_rate : ℚ
deriving DecidableEq, Repr

/-- The field mutation performed on the matched trade inside
`close_position` (lines 447-455): pnl is
`(exit_price - entry) * (size / entry)` and status becomes CLOSED. -/
def closeTrade (t : Trade) (exit_price : ℚ) (now : Nat) : Trade :=
  let profit := (exit_price - t.entry_price) * (t.position_size / t.entry_price)
  { t with exit_price := some exit_price, exit_time := some now,
           pnl := some profit, status := TradeStatus.CLOSED }

/-- The search loop of `close_position`: find the first trade with the
given id and status OPEN, mutate it in place, and return it together
with the updated list; `none` when no such trade exists. -/
def close_position_aux : List Trade → String → ℚ → Nat → Option (Trade × List Trade)
  | [], _, _, _ => none
  | t :: rest, trade_id, exit_price, now =>
    if t.id = trade_id ∧ t.status = TradeStatus.OPEN then
      let t' := closeTrade t exit_price now
      some (t', t' :: rest)
    else
      match close_position_aux rest trade_id exit_price now with
      | none => none
      | some (c, rest') => some (c, t :: rest')

/-- Source `close_position` (lines 443-469): close the first OPEN trade with
the given id, record a loss when pnl < 0 and a win otherwise, then
recompute the win rate; return `none` and leave everything unchanged
when no OPEN trade with that id exists. -/
def close_position (s : TraderState) (trade_id : String) (exit_price : ℚ) (now : Nat) :
    Option Trade × TraderState :=
  match close_position_aux s.trades trade_id exit_price now with
  | none => (none, s)
  | some (c, trades') =>
    let profit := c.pnl.getD 0
    let breakers' :=
      if profit < 0 then record_loss s.breakers c.strategy now
      else record_win s.breakers c.strategy
    (some c, { trades := trades', breakers := breakers',
               win_rate := calculate_win_rate trades' })

/-- Per-market price history record: parallel lists of prices and
timestamps, as stored in `market_history.json`. -/
structure MarketHistory where
  prices : List ℚ
  timestamps : List Nat
deriving DecidableEq, Repr

/-- The market-history store, keyed by market id. -/
abbrev HistoryMap := List (String × MarketHistory)

/-- Source `update_market_history` (lines 203-216): append the observed price
and timestamp, then pop the front of both lists once the price list
exceeds 10 entries ("Keep last 10 prices"). -/
def update_market_history (hist : HistoryMap) (market_id : String) (yes_price : ℚ)
    (now : Nat) : HistoryMap :=
  let h := (lookupA hist market_id).getD { prices := [], timestamps := [] }
  let prices := h.prices ++ [yes_price]
  let timestamps := h.timestamps ++ [now]
  let h' :=
    if prices.length > 10 then
      { prices := prices.tail, timestamps := timestamps.tail : MarketHistory }
    else { prices := prices, timestamps := timestamps : MarketHistory }
  setA hist market_id h'

/-- Source `open_position` (lines 421-441): build a fresh OPEN trade sized by
`calculate_position_size` and append it to the trade list.  The uuid
is an external source of fresh names, passed in as `newId`. -/
def open_position (s : TraderState) (newId : String) (market_id : String)
    (yes_price : ℚ) (question : String) (strategy : String) (now : Nat) :
    Trade × TraderState :=
  let position : Trade :=
    { id := newId, market_id := market_id, question := question,
      strategy := strategy, entry_price := yes_price, entry_time := now,
      position_size := calculate_position_size s.win_rate strategy,
      exit_price := none, exit_time := none, pnl := none,
      status := TradeStatus.OPEN }
  (position, { s with trades := s.trades ++ [position] })

/-- The duplicate-position guard used before contrarian and late-entry
opens (lines 537-540, 550-553): any trade with the same market id and
status OPEN, regardless of strategy or timeframe. -/
def has_open_position (trades : List Trade) (market_id : String) : Bool :=
  trades.any (fun t => decide (t.market_id = market_id ∧ t.status = TradeStatus.OPEN))

/-- A contrarian or late-entry opportunity as consumed by the
execution loops of `run_trading_cycle` (the signal-detection code that
produces these records is an external signal provider). -/
structure Opp where
  market_id : String
  question : String
  yes_price : ℚ
  strategy : String
deriving DecidableEq, Repr

/-- An arbitrage opportunity as consumed by `run_trading_cycle`
(fields of the record built by `check_arbitrage_opportunity`,
lines 329-339, that the execution loop reads). -/
structure Arb where
  market_1 : String
  market_2 : String
  long : String
  entry_price : ℚ
deriving DecidableEq, Repr

/-- Fresh position ids for the uuid calls of one cycle. -/
def freshId (n : Nat) : String := "pos-" ++ toString n

/-- The guarded open loop of `run_trading_cycle` for contrarian and
late-entry opportunities (lines 536-545, 549-556): skip an opportunity
whose market already has an OPEN position, otherwise open.  Threads
the uuid counter. -/
def run_opens : TraderState → List Opp → Nat → Nat → TraderState × Nat
  | s, [], n, _ => (s, n)
  | s, o :: rest, n, now =>
    if has_open_position s.trades o.market_id then run_opens s rest n now
    else
      let s' := (open_position s (freshId n) o.market_id o.yes_price o.question o.strategy now).2
      run_opens s' rest (n + 1) now

/-- The arbitrage open loop of `run_trading_cycle` (lines 560-562):
opens unconditionally, with no duplicate-position guard. -/
def run_arb_opens : TraderState → List Arb → Nat → Nat → TraderState × Nat
  | s, [], n, _ => (s, n)
  | s, a :: rest, n, now =>
    let question := "Arb: " ++ a.market_1 ++ " vs " ++ a.market_2
    let s' := (open_position s (freshId n) a.long a.entry_price question "Arbitrage" now).2
    run_arb_opens s' rest (n + 1) now

/-- The execution section of `run_trading_cycle` (lines 534-562): for
each strategy in order, re-check its circuit breaker (with its expiry
side effect) and, when not broken, open positions for the first 1
contrarian, first 2 late-entry and first 1 arbitrage opportunities. -/
def execute_opportunities (s : TraderState) (contrarian late_entry : List Opp)
    (arbitrage : List Arb) (n : Nat) (now : Nat) : TraderState × Nat :=
  let pC := check_circuit_breaker_expired s.breakers "AI Contrarian" now
  let s1 : TraderState := { s with breakers := pC.2 }
  let r1 := if pC.1 then (s1, n) else run_opens s1 (contrarian.take 1) n now
  let pL := check_circuit_breaker_expired r1.1.breakers "Late Entry" now
  let s2 : TraderState := { r1.1 with breakers := pL.2 }
  let r2 := if pL.1 then (s2, r1.2) else run_opens s2 (late_entry.take 2) r1.2 now
  let pA := check_circuit_breaker_expired r2.1.breakers "Arbitrage" now
  let s3 : TraderState := { r2.1 with breakers := pA.2 }
  if pA.1 then (s3, r2.2) else run_arb_opens s3 (arbitrage.take 1) r2.2 now

/-- The exit threshold of `check_sell_signals` (line 484): 0.70 for
AI Contrarian, 0.65 otherwise. -/
def sell_threshold (strategy : String) : ℚ :=
  if strategy = "AI Contrarian" then 7/10 else 13/20

/-- One iteration of the `check_sell_signals` loop, looking at the
trade currently at index `i`: skip non-OPEN trades, skip a missing or
zero price (`if not yes_price`), and close when the price exceeds the
strategy's threshold. -/
def sell_step (priceOf : String → Option ℚ) (now : Nat) (s : TraderState) (i : Nat) :
    TraderState :=
  match s.trades[i]? with
  | none => s
  | some t =>
    if t.status = TradeStatus.OPEN then
      match priceOf t.market_id with
      | none => s
      | some yes_price =>
        if yes_price = 0 then s
        else if yes_price > sell_threshold t.strategy then
          (close_position s t.id yes_price now).2
        else s
    else s

/-- Source `check_sell_signals` (lines 471-487): iterate over the trade list
(whose length `close_position` never changes), closing each OPEN trade
whose fetched price exceeds its strategy's exit threshold.  The price
fetch `get_market_price` is external, passed in as `priceOf`. -/
def check_sell_signals (s : TraderState) (priceOf : String → Option ℚ) (now : Nat) :
    TraderState :=
  (List.range s.trades.length).foldl (sell_step priceOf now) s

/-- Constant `self.avoid_hours = [6, 7]` (line 59). -/
def avoid_hours : List Nat := [6, 7]

/-- Constant `self.optimal_windows` (lines 55-58). -/
def optimal_windows : List (Nat × Nat) := [(14, 16), (22, 2)]

/-- Source `is_trading_allowed` (lines 92-110): reject avoid-hours, accept an
hour inside some optimal window (windows may wrap midnight). -/
def is_trading_allowed (hour : Nat) : Bool :=
  if hour ∈ avoid_hours then false
  else
    optimal_windows.any (fun w =>
      if w.1 < w.2 then decide (w.1 ≤ hour ∧ hour < w.2)
      else decide (hour ≥ w.1 ∨ hour < w.2))

/-- The per-strategy breaker scan at the top of `run_trading_cycle`
(lines 503-506): check each of the three strategies in order, threading
the expiry side effects, and report which are active. -/
def cycle_breaker_scan (cb : BreakerMap) (now : Nat) : (Bool × Bool × Bool) × BreakerMap :=
  let pC := check_circuit_breaker_expired cb "AI Contrarian" now
  let pL := check_circuit_breaker_expired pC.2 "Late Entry" now
  let pA := check_circuit_breaker_expired pL.2 "Arbitrage" now
  ((pC.1, pL.1, pA.1), pA.2)

/-- Source `run_trading_cycle` (lines 489-578), with its external inputs made
explicit: the current hour (timing filter), whether the markets file
exists, the opportunity lists produced by the signal providers
(`find_buy_opportunities`), the price oracle for exits, a uuid
counter, and the current time.  The cycle returns early when outside
the trading window, when all three breakers are active, or when no
market data is available; otherwise it executes opens and then
evaluates exits.  Console output is not modelled. -/
def run_trading_cycle (s : TraderState) (hour : Nat) (marketsAvailable : Bool)
    (contrarian late_entry : List Opp) (arbitrage : List Arb)
    (priceOf : String → Option ℚ) (n : Nat) (now : Nat) : TraderState :=
  if is_trading_allowed hour = false then s
  else
    let scan := cycle_breaker_scan s.breakers now
    let s1 : TraderState := { s with breakers := scan.2 }
    if scan.1.1 && scan.1.2.1 && scan.1.2.2 then s1
    else if marketsAvailable = false then s1
    else
      let s2 := (execute_opportunities s1 contrarian late_entry arbitrage n now).1
      check_sell_signals s2 priceOf now

/-- Modelled from the spec: the Capital Ledger of §4.2 — a
per-strategy `CapitalAccount` with current balance, cumulative PnL and
streak counters — does not exist in the source files under src/ (the
source keeps no per-strategy balance).  The record follows the spec's
data model (§3). -/
structure CapitalAccount where
  initial : ℚ
  current : ℚ
  cumulative_pnl : ℚ
  consecutive_wins : Nat
  consecutive_losses : Nat
deriving DecidableEq, Repr

/-- Modelled from the spec: the default-initialized account of §4.2
(balance = configured initial capital, zero PnL and streaks). -/
def CapitalAccount.mkDefault (initial : ℚ) : CapitalAccount :=
  { initial := initial, current := initial, cumulative_pnl := 0,
    consecutive_wins := 0, consecutive_losses := 0 }

/-- Modelled from the spec: `apply_close(strategy, pnl)` of §4.2 —
balance += pnl; cumulative_pnl += pnl; a negative pnl increments
consecutive_losses and resets consecutive_wins, otherwise the wins
counter increments and the losses counter resets. -/
def apply_close (a : CapitalAccount) (pnl : ℚ) : CapitalAccount :=
  if pnl < 0 then
    { a with current := a.current + pnl, cumulative_pnl := a.cumulative_pnl + pnl,
             consecutive_losses := a.consecutive_losses + 1, consecutive_wins := 0 }
  else
    { a with current := a.current + pnl, cumulative_pnl := a.cumulative_pnl + pnl,
             consecutive_wins := a.consecutive_wins + 1, consecutive_losses := 0 }

/-! ### Helper lemmas -/

theorem lookupA_setA_self {α : Type} (m : List (String × α)) (k : String) (v : α) :
    lookupA (setA m k v) k = some v := by
  induction m with
  | nil => simp [setA, lookupA]
  | cons hd tl ih =>
    obtain ⟨k', w⟩ := hd
    by_cases h : k' = k
    · simp [setA, h, lookupA]
    · simp [setA, h, lookupA, ih]

theorem lookupA_setA_ne {α : Type} (m : List (String × α)) (k k' : String) (v : α)
    (h : k ≠ k') : lookupA (setA m k v) k' = lookupA m k' := by
  induction m with
  | nil => simp [setA, lookupA, h]
  | cons hd tl ih =>
    obtain ⟨k0, w⟩ := hd
    by_cases h0 : k0 = k
    · subst h0
      simp [setA, lookupA, h]
    · simp [setA, h0, lookupA, ih]

/-! ### Concrete states used to evaluate the definitions -/

/-- A single OPEN trade with entry price 0.20 and stake 10.00 — the
spec's fee example. -/
def exTrade : Trade :=
  { id := "t1", market_id := "m1", question := "q", strategy := "AI Contrarian",
    entry_price := 1/5, entry_time := 0, position_size := 10,
    exit_price := none, exit_time := none, pnl := none,
    status := TradeStatus.OPEN }

/-- A trader state holding only `exTrade`. -/
def exState : TraderState :=
  { trades := [exTrade], breakers := [], win_rate := 1/2 }

/-- The trade produced by closing `exTrade` at price 0.40 at time 5. -/
def exClosedTrade : Trade := closeTrade exTrade (2/5) 5

/-- The trader state after that close. -/
def exClosedState : TraderState := (close_position exState "t1" (2/5) 5).2

/-! ### Lemmas about `close_position` -/

theorem close_position_aux_spec :
    ∀ (l : List Trade) (tid : String) (xp : ℚ) (now : Nat) (c : Trade) (l' : List Trade),
      close_position_aux l tid xp now = some (c, l') →
      ∃ pre t post,
        l = pre ++ t :: post ∧
        l' = pre ++ closeTrade t xp now :: post ∧
        (∀ u ∈ pre, ¬(u.id = tid ∧ u.status = TradeStatus.OPEN)) ∧
        t.id = tid ∧ t.status = TradeStatus.OPEN ∧ c = closeTrade t xp now := by
  intro l
  induction l with
  | nil => intro tid xp now c l' h; simp [close_position_aux] at h
  | cons t rest ih =>
    intro tid xp now c l' h
    by_cases hcond : t.id = tid ∧ t.status = TradeStatus.OPEN
    · rw [close_position_aux, if_pos hcond] at h
      obtain ⟨hc, hl⟩ := Prod.mk.injEq .. ▸ Option.some.injEq .. ▸ h
      exact ⟨[], t, rest, by simp, by simp [← hl], by simp, hcond.1, hcond.2, hc.symm⟩
    · rw [close_position_aux, if_neg hcond] at h
      cases hrec : close_position_aux rest tid xp now with
      | none => rw [hrec] at h; simp at h
      | some pr =>
        obtain ⟨c0, rest'⟩ := pr
        rw [hrec] at h
        simp only [Option.some.injEq, Prod.mk.injEq] at h
        obtain ⟨hc, hl⟩ := h
        obtain ⟨pre, t0, post, h1, h2, h3, h4, h5, h6⟩ := ih tid xp now c0 rest' hrec
        refine ⟨t :: pre, t0, post, by simp [h1], by simp [← hl, h2], ?_, h4, h5, hc ▸ h6⟩
        intro u hu
        rcases List.mem_cons.mp hu with h | h
        · exact h ▸ hcond
        · exact h3 u h


theorem close_position_aux_none :
    ∀ (l : List Trade) (tid : String) (xp : ℚ) (now : Nat),
      (∀ t ∈ l, ¬(t.id = tid ∧ t.status = TradeStatus.OPEN)) →
      close_position_aux l tid xp now = none := by
  intro l
  induction l with
  | nil => intro tid xp now _; rfl
  | cons t rest ih =>
    intro tid xp now h
    rw [close_position_aux, if_neg (h t (List.mem_cons_self t rest))]
    rw [ih tid xp now (fun u hu => h u (List.mem_cons_of_mem t hu))]

theorem exClosedTrade_pnl : exClosedTrade.pnl = some 10 := by
  simp only [exClosedTrade, closeTrade, exTrade, Option.some.injEq]
  norm_num

theorem ex_close_eq :
    close_position exState "t1" (2/5) 5 = (some exClosedTrade, exClosedState) := by
  have h1 : (close_position exState "t1" (2/5) 5).1 = some exClosedTrade := by
    unfold close_position
    have haux : close_position_aux exState.trades "t1" (2/5) 5
        = some (exClosedTrade, [exClosedTrade]) := rfl
    rw [haux]
  have h2 : (close_position exState "t1" (2/5) 5).2 = exClosedState := rfl
  exact Prod.ext h1 h2

/-- C1 (counterexample): at the spec's own example — entry price 0.20,
exit price 0.40, stake 10.00 — `close_position` records pnl 10.00, not
the fee-adjusted 9.80 the claim states: no fee is deducted. -/
theorem close_pnl_fee_counterexample :
    ((close_position exState "t1" (2/5) 5).1.map Trade.pnl) = some (some 10) ∧
    ¬ ((close_position exState "t1" (2/5) 5).1.map Trade.pnl) = some (some (49/5)) := by
  rw [ex_close_eq]
  refine ⟨by simp [exClosedTrade_pnl], ?_⟩
  rw [show Option.map Trade.pnl (some exClosedTrade) = some exClosedTrade.pnl from rfl]
  rw [exClosedTrade_pnl]
  simp only [Option.some.injEq]
  norm_num

/-- C1 (amended): every close of an OPEN position records
pnl = (exit_price - entry_price) * (stake / entry_price) with no fee
deducted, and marks the position CLOSED. -/
theorem close_pnl_no_fee (s : TraderState) (tid : String) (xp : ℚ) (now : Nat)
    (c : Trade) (s' : TraderState)
    (h : close_position s tid xp now = (some c, s')) :
    c.pnl = some ((xp - c.entry_price) * (c.position_size / c.entry_price)) ∧
    c.status = TradeStatus.CLOSED := by
  unfold close_position at h
  cases haux : close_position_aux s.trades tid xp now with
  | none => rw [haux] at h; simp at h
  | some pr =>
    obtain ⟨c0, tr⟩ := pr
    rw [haux] at h
    simp only [Prod.mk.injEq, Option.some.injEq] at h
    obtain ⟨pre, t, post, _, _, _, _, _, hc⟩ := close_position_aux_spec _ _ _ _ _ _ haux
    rw [← h.1, hc]
    simp [closeTrade]

/-- Witness for C1's amended theorem at the concrete example state. -/
theorem close_pnl_no_fee_witness :
    exClosedTrade.pnl
      = some (((2 : ℚ)/5 - exClosedTrade.entry_price) *
          (exClosedTrade.position_size / exClosedTrade.entry_price)) ∧
    exClosedTrade.status = TradeStatus.CLOSED :=
  close_pnl_no_fee exState "t1" (2/5) 5 exClosedTrade exClosedState ex_close_eq

/-- C9: closing a trade id that has no OPEN position returns `none`
and leaves the trade store, the circuit-breaker store and the win rate
exactly as they were. -/
theorem close_notfound_unchanged (s : TraderState) (tid : String) (xp : ℚ) (now : Nat)
    (h : ∀ t ∈ s.trades, ¬(t.id = tid ∧ t.status = TradeStatus.OPEN)) :
    close_position s tid xp now = (none, s) := by
  unfold close_position
  rw [close_position_aux_none s.trades tid xp now h]

/-- Witness for C9: closing an unknown id on the concrete state is a
no-op. -/
theorem close_notfound_witness :
    close_position exState "zz" (2/5) 5 = (none, exState) :=
  close_notfound_unchanged exState "zz" (2/5) 5 (by decide)

/-- C10: a successful close mutates only the first OPEN trade with the
requested id — its exit_price, exit_time, pnl and status — and keeps
its id, market_id, question, strategy, entry_price, entry_time and
position_size; every other trade in the store is untouched. -/
theorem close_frame (s : TraderState) (tid : String) (xp : ℚ) (now : Nat)
    (c : Trade) (s' : TraderState)
    (h : close_position s tid xp now = (some c, s')) :
    ∃ pre t post,
      s.trades = pre ++ t :: post ∧
      s'.trades = pre ++ c :: post ∧
      (∀ u ∈ pre, ¬(u.id = tid ∧ u.status = TradeStatus.OPEN)) ∧
      t.id = tid ∧ t.status = TradeStatus.OPEN ∧
      c.id = t.id ∧ c.market_id = t.market_id ∧ c.question = t.question ∧
      c.strategy = t.strategy ∧ c.entry_price = t.entry_price ∧
      c.entry_time = t.entry_time ∧ c.position_size = t.position_size ∧
      c.status = TradeStatus.CLOSED ∧ c.exit_price = some xp ∧
      c.exit_time = some now := by
  unfold close_position at h
  cases haux : close_position_aux s.trades tid xp now with
  | none => rw [haux] at h; simp at h
  | some pr =>
    obtain ⟨c0, tr⟩ := pr
    rw [haux] at h
    simp only [Prod.mk.injEq, Option.some.injEq] at h
    obtain ⟨pre, t, post, h1, h2, h3, h4, h5, hc⟩ := close_position_aux_spec _ _ _ _ _ _ haux
    have hc' : c = closeTrade t xp now := h.1 ▸ hc
    refine ⟨pre, t, post, h1, ?_, h3, h4, h5, ?_⟩
    · rw [← h.2]
      show tr = pre ++ c :: post
      rw [h2, hc']
    · rw [hc']
      simp [closeTrade]

/-- Witness for C10 at the concrete example state. -/
theorem close_frame_witness :
    ∃ pre t post,
      exState.trades = pre ++ t :: post ∧
      exClosedState.trades = pre ++ exClosedTrade :: post ∧
      (∀ u ∈ pre, ¬(u.id = "t1" ∧ u.status = TradeStatus.OPEN)) ∧
      t.id = "t1" ∧ t.status = TradeStatus.OPEN ∧
      exClosedTrade.id = t.id ∧ exClosedTrade.market_id = t.market_id ∧
      exClosedTrade.question = t.question ∧
      exClosedTrade.strategy = t.strategy ∧
      exClosedTrade.entry_price = t.entry_price ∧
      exClosedTrade.entry_time = t.entry_time ∧
      exClosedTrade.position_size = t.position_size ∧
      exClosedTrade.status = TradeStatus.CLOSED ∧
      exClosedTrade.exit_price = some (2/5) ∧
      exClosedTrade.exit_time = some 5 :=
  close_frame exState "t1" (2/5) 5 exClosedTrade exClosedState ex_close_eq

/-! ### Capital Ledger (spec-modelled) -/

theorem apply_close_fields (a : CapitalAccount) (p : ℚ) :
    (apply_close a p).current = a.current + p ∧
    (apply_close a p).cumulative_pnl = a.cumulative_pnl + p ∧
    (apply_close a p).initial = a.initial := by
  unfold apply_close
  split <;> simp

/-- C2: for any initial capital and any sequence of closes applied
through `apply_close`, the account satisfies
current == initial + cumulative_pnl at every point, and each
`apply_close` adds the close's pnl to both the balance and the
cumulative PnL. -/
theorem capital_balance_identity (init : ℚ) (pnls : List ℚ) :
    ((pnls.foldl apply_close (CapitalAccount.mkDefault init)).current
      = (pnls.foldl apply_close (CapitalAccount.mkDefault init)).initial
        + (pnls.foldl apply_close (CapitalAccount.mkDefault init)).cumulative_pnl) ∧
    (pnls.foldl apply_close (CapitalAccount.mkDefault init)).initial = init ∧
    (∀ (a : CapitalAccount) (p : ℚ),
      (apply_close a p).current = a.current + p ∧
      (apply_close a p).cumulative_pnl = a.cumulative_pnl + p) := by
  have main : ∀ (l : List ℚ) (a : CapitalAccount),
      a.current = a.initial + a.cumulative_pnl →
      (l.foldl apply_close a).current
        = (l.foldl apply_close a).initial + (l.foldl apply_close a).cumulative_pnl ∧
      (l.foldl apply_close a).initial = a.initial := by
    intro l
    induction l with
    | nil => intro a h; exact ⟨h, rfl⟩
    | cons p rest ih =>
      intro a h
      simp only [List.foldl_cons]
      obtain ⟨e1, e2, e3⟩ := apply_close_fields a p
      have h' : (apply_close a p).current
          = (apply_close a p).initial + (apply_close a p).cumulative_pnl := by
        rw [e1, e2, e3, h]; ring
      obtain ⟨g1, g2⟩ := ih (apply_close a p) h'
      exact ⟨g1, g2.trans e3⟩
  obtain ⟨g1, g2⟩ := main pnls (CapitalAccount.mkDefault init)
    (by simp [CapitalAccount.mkDefault])
  refine ⟨g1, by simpa [CapitalAccount.mkDefault] using g2, ?_⟩
  intro a p
  exact ⟨(apply_close_fields a p).1, (apply_close_fields a p).2.1⟩

/-! ### Position sizing -/

/-- C7: every sizing call returns a stake inside
[min_position_size, max_position_size] = [5.00, 100.00]. -/
theorem position_size_within_bounds (w : ℚ) (st : String) :
    min_position_size ≤ calculate_position_size w st ∧
    calculate_position_size w st ≤ max_position_size := by
  unfold calculate_position_size
  refine ⟨le_max_left _ _, max_le ?_ (min_le_left _ _)⟩
  norm_num [min_position_size, max_position_size]

/-- C6 (counterexample): with no closed trades — no streak, default
state — the sizer returns 10.00, not the 5.00 the claim computes from
capital 100.00 times risk-per-trade 0.05; the source sizes from the
global win rate, not from any per-strategy balance. -/
theorem calculate_win_rate_nil : calculate_win_rate [] = 1/2 := rfl

theorem sizer_at_half : ∀ st : String, calculate_position_size (1/2) st = 10 := by
  intro st
  show max min_position_size (min max_position_size
    (base_position_size + ((1 : ℚ)/2 - 1/2) * 10 * base_position_size)) = 10
  rw [show base_position_size + ((1 : ℚ)/2 - 1/2) * 10 * base_position_size
        = base_position_size by ring]
  rw [min_eq_right (by norm_num [base_position_size, max_position_size])]
  rw [max_eq_right (by norm_num [base_position_size, min_position_size])]
  rfl

theorem sizer_capital_counterexample :
    calculate_position_size (calculate_win_rate []) "AI Contrarian" = 10 ∧
    ¬ ((10 : ℚ) = 5) := by
  refine ⟨?_, by norm_num⟩
  rw [calculate_win_rate_nil]
  exact sizer_at_half "AI Contrarian"

/-- C6 (amended): the sizer depends only on the overall win rate —
stake = clamp of base * (1 + (win_rate - 0.5) * 10) to [5, 100] — it
is monotone in the win rate, returns 10.00 in the default no-streak
state (no closed trades), and 20.00 at a 60 percent win rate. -/
theorem sizer_winrate_formula :
    (∀ (w1 w2 : ℚ) (st : String), w1 ≤ w2 →
      calculate_position_size w1 st ≤ calculate_position_size w2 st) ∧
    (∀ st : String, calculate_position_size (calculate_win_rate []) st = 10) ∧
    (∀ (w : ℚ) (st : String),
      calculate_position_size w st
        = max min_position_size (min max_position_size
            (base_position_size + (w - 1/2) * 10 * base_position_size))) := by
  refine ⟨?_, ?_, ?_⟩
  · intro w1 w2 st h
    unfold calculate_position_size
    refine max_le_max le_rfl (min_le_min le_rfl ?_)
    have : (w1 - 1/2) * 10 ≤ (w2 - 1/2) * 10 := by linarith
    unfold base_position_size
    nlinarith
  · intro st
    rw [calculate_win_rate_nil]
    exact sizer_at_half st
  · intro w st; rfl

/-- Witness for C6's amended theorem: monotonicity at win rates 0.5
and 0.6, and the concrete default value. -/
theorem sizer_winrate_formula_witness :
    calculate_position_size (1/2) "Late Entry" ≤ calculate_position_size (3/5) "Late Entry" ∧
    calculate_position_size (calculate_win_rate []) "Late Entry" = 10 :=
  ⟨sizer_winrate_formula.1 (1/2) (3/5) "Late Entry" (by norm_num),
   sizer_winrate_formula.2.1 "Late Entry"⟩

/-! ### Circuit breaker -/

theorem record_loss_lookup (cb : BreakerMap) (st : String) (now : Nat) (b : BreakerState)
    (h : (lookupA cb st).getD defaultBreaker = b) :
    lookupA (record_loss cb st now) st =
      some (if b.consecutive_losses + 1 ≥ circuit_breaker_threshold
        then { consecutive_losses := b.consecutive_losses + 1, circuit_broken := true,
               broken_until := some (now + lockout_seconds) }
        else { consecutive_losses := b.consecutive_losses + 1,
               circuit_broken := b.circuit_broken, broken_until := b.broken_until }) := by
  subst h
  unfold record_loss
  rw [lookupA_setA_self]

/-- C4: starting from zero consecutive losses, three losing closes for
a strategy leave the breaker record at consecutive_losses = 3 with
circuit_broken = true and broken_until = tripping-close time + 24h;
a subsequent winning close resets the record to the default, and a
tradeability check strictly after broken_until resets it as well and
reports not-broken; a close routes to record_loss exactly when its pnl
is negative and to record_win otherwise. -/
theorem breaker_trip_and_reset (cb : BreakerMap) (st : String) (t1 t2 t3 now : Nat)
    (h0 : ((lookupA cb st).getD defaultBreaker).consecutive_losses = 0)
    (hnow : t3 + lockout_seconds < now) :
    lookupA (record_loss (record_loss (record_loss cb st t1) st t2) st t3) st
      = some { consecutive_losses := 3, circuit_broken := true,
               broken_until := some (t3 + lockout_seconds) } ∧
    lookupA (record_win (record_loss (record_loss (record_loss cb st t1) st t2) st t3) st) st
      = some defaultBreaker ∧
    check_circuit_breaker_expired
        (record_loss (record_loss (record_loss cb st t1) st t2) st t3) st now
      = (false, setA (record_loss (record_loss (record_loss cb st t1) st t2) st t3)
          st defaultBreaker) ∧
    lookupA (check_circuit_breaker_expired
        (record_loss (record_loss (record_loss cb st t1) st t2) st t3) st now).2 st
      = some defaultBreaker ∧
    (∀ (s : TraderState) (tid : String) (xp : ℚ) (tm : Nat) (c : Trade) (s' : TraderState),
      close_position s tid xp tm = (some c, s') →
      ((c.pnl.getD 0 < 0 → s'.breakers = record_loss s.breakers c.strategy tm) ∧
       (¬ c.pnl.getD 0 < 0 → s'.breakers = record_win s.breakers c.strategy))) := by
  have e1 : lookupA (record_loss cb st t1) st
      = some { consecutive_losses := 1,
               circuit_broken := ((lookupA cb st).getD defaultBreaker).circuit_broken,
               broken_until := ((lookupA cb st).getD defaultBreaker).broken_until } := by
    have := record_loss_lookup cb st t1 ((lookupA cb st).getD defaultBreaker) rfl
    rw [h0] at this
    norm_num [circuit_breaker_threshold] at this
    exact this
  have e2 : lookupA (record_loss (record_loss cb st t1) st t2) st
      = some { consecutive_losses := 2,
               circuit_broken := ((lookupA cb st).getD defaultBreaker).circuit_broken,
               broken_until := ((lookupA cb st).getD defaultBreaker).broken_until } := by
    have := record_loss_lookup (record_loss cb st t1) st t2
      { consecutive_losses := 1,
        circuit_broken := ((lookupA cb st).getD defaultBreaker).circuit_broken,
        broken_until := ((lookupA cb st).getD defaultBreaker).broken_until }
      (by rw [e1]; rfl)
    norm_num [circuit_breaker_threshold] at this
    exact this
  have e3 : lookupA (record_loss (record_loss (record_loss cb st t1) st t2) st t3) st
      = some { consecutive_losses := 3, circuit_broken := true,
               broken_until := some (t3 + lockout_seconds) } := by
    have := record_loss_lookup (record_loss (record_loss cb st t1) st t2) st t3
      { consecutive_losses := 2,
        circuit_broken := ((lookupA cb st).getD defaultBreaker).circuit_broken,
        broken_until := ((lookupA cb st).getD defaultBreaker).broken_until }
      (by rw [e2]; rfl)
    norm_num [circuit_breaker_threshold] at this
    exact this
  have e4 : check_circuit_breaker_expired
        (record_loss (record_loss (record_loss cb st t1) st t2) st t3) st now
      = (false, setA (record_loss (record_loss (record_loss cb st t1) st t2) st t3)
          st defaultBreaker) := by
    unfold check_circuit_breaker_expired
    rw [e3]
    simp [hnow]
  refine ⟨e3, lookupA_setA_self _ _ _, e4, by rw [e4]; exact lookupA_setA_self _ _ _, ?_⟩
  intro s tid xp tm c s' h
  unfold close_position at h
  cases haux : close_position_aux s.trades tid xp tm with
  | none => rw [haux] at h; simp at h
  | some pr =>
    obtain ⟨c0, tr⟩ := pr
    rw [haux] at h
    simp only [Prod.mk.injEq, Option.some.injEq] at h
    obtain ⟨hc, hs⟩ := h
    subst hc
    constructor
    · intro hp
      rw [← hs]
      simp [hp]
    · intro hp
      rw [← hs]
      simp [hp]

/-- Witness for C4: a fresh breaker store, three losses at times
0, 1, 2, a check at time 100000. -/
theorem breaker_trip_witness :
    lookupA (record_loss (record_loss (record_loss [] "AI Contrarian" 0)
        "AI Contrarian" 1) "AI Contrarian" 2) "AI Contrarian"
      = some { consecutive_losses := 3, circuit_broken := true,
               broken_until := some (2 + lockout_seconds) } ∧
    lookupA (record_win (record_loss (record_loss (record_loss [] "AI Contrarian" 0)
        "AI Contrarian" 1) "AI Contrarian" 2) "AI Contrarian") "AI Contrarian"
      = some defaultBreaker ∧
    lookupA (check_circuit_breaker_expired (record_loss (record_loss
        (record_loss [] "AI Contrarian" 0) "AI Contrarian" 1) "AI Contrarian" 2)
        "AI Contrarian" 100000).2 "AI Contrarian"
      = some defaultBreaker := by
  have h := breaker_trip_and_reset [] "AI Contrarian" 0 1 2 100000 (by decide) (by decide)
  exact ⟨h.1, h.2.1, h.2.2.2.1⟩

/-! ### Market history -/

/-- Fold of `n` successive record calls for market "m1" on an initially empty
history store, with price 1/2 and increasing timestamps. -/
def recordMany : Nat → HistoryMap
  | 0 => []
  | n + 1 => update_market_history (recordMany n) "m1" (1/2) n

/-- C8 (counterexample): the cap is 10, not 20 — after 21 record calls
on an empty store the retained history has 10 entries, where the claim
(cap 20, first eviction at the 21st append) predicts 20. -/
theorem history_cap_counterexample :
    ((lookupA (recordMany 21) "m1").getD { prices := [], timestamps := [] }).prices.length
      = 10 ∧ ¬ (10 = 20) := by
  constructor
  · decide
  · decide

/-- C8 (amended): `record` appends the new entry and then evicts
exactly the oldest entry once the length exceeds the cap of 10 (not
20): from any history of length at most 10, the result keeps the old
entries in order with the new entry last, drops the front entry
exactly when the history already held 10, and has length at most 10. -/
theorem history_cap10 (hist : HistoryMap) (m : String) (p : ℚ) (now : Nat)
    (h : ((lookupA hist m).getD { prices := [], timestamps := [] }).prices.length ≤ 10) :
    ∃ h' : MarketHistory,
      lookupA (update_market_history hist m p now) m = some h' ∧
      h'.prices = (if ((lookupA hist m).getD { prices := [], timestamps := [] }).prices.length < 10
        then ((lookupA hist m).getD { prices := [], timestamps := [] }).prices ++ [p]
        else (((lookupA hist m).getD { prices := [], timestamps := [] }).prices ++ [p]).tail) ∧
      h'.timestamps = (if ((lookupA hist m).getD { prices := [], timestamps := [] }).prices.length < 10
        then ((lookupA hist m).getD { prices := [], timestamps := [] }).timestamps ++ [now]
        else (((lookupA hist m).getD { prices := [], timestamps := [] }).timestamps ++ [now]).tail) ∧
      h'.prices.length ≤ 10 := by
  unfold update_market_history
  rw [lookupA_setA_self]
  set old := (lookupA hist m).getD { prices := [], timestamps := [] } with hold
  by_cases hlen : old.prices.length < 10
  · have hC : ¬ ((old.prices ++ [p]).length > 10) := by
      simp only [List.length_append, List.length_cons, List.length_nil]
      omega
    rw [if_neg hC]
    refine ⟨_, rfl, ?_, ?_, ?_⟩
    · rw [if_pos hlen]
    · rw [if_pos hlen]
    · simp only [List.length_append, List.length_cons, List.length_nil]
      omega
  · have hC : (old.prices ++ [p]).length > 10 := by
      simp only [List.length_append, List.length_cons, List.length_nil]
      omega
    rw [if_pos hC]
    refine ⟨_, rfl, ?_, ?_, ?_⟩
    · rw [if_neg hlen]
    · rw [if_neg hlen]
    · simp only [List.length_tail, List.length_append, List.length_cons, List.length_nil]
      omega

/-- A history store holding exactly 10 entries for market "m1". -/
def hist10 : HistoryMap :=
  [("m1", { prices := [1, 2, 3, 4, 5, 6, 7, 8, 9, 10],
            timestamps := [0, 1, 2, 3, 4, 5, 6, 7, 8, 9] })]

/-- Witness for C8's amended theorem: the 11th append on a full
history evicts the oldest entry. -/
theorem history_cap10_witness :
    ∃ h' : MarketHistory,
      lookupA (update_market_history hist10 "m1" (3/4) 10) "m1" = some h' ∧
      h'.prices = (if ((lookupA hist10 "m1").getD { prices := [], timestamps := [] }).prices.length < 10
        then ((lookupA hist10 "m1").getD { prices := [], timestamps := [] }).prices ++ [3/4]
        else (((lookupA hist10 "m1").getD { prices := [], timestamps := [] }).prices ++ [3/4]).tail) ∧
      h'.timestamps = (if ((lookupA hist10 "m1").getD { prices := [], timestamps := [] }).prices.length < 10
        then ((lookupA hist10 "m1").getD { prices := [], timestamps := [] }).timestamps ++ [10]
        else (((lookupA hist10 "m1").getD { prices := [], timestamps := [] }).timestamps ++ [10]).tail) ∧
      h'.prices.length ≤ 10 :=
  history_cap10 hist10 "m1" (3/4) 10 (by decide)

/-! ### Single-open invariant -/

/-- The number of OPEN trades for one market id. -/
def countOpen (trades : List Trade) (m : String) : Nat :=
  trades.countP (fun t => decide (t.market_id = m ∧ t.status = TradeStatus.OPEN))

theorem countOpen_append (l1 l2 : List Trade) (m : String) :
    countOpen (l1 ++ l2) m = countOpen l1 m + countOpen l2 m := by
  simp [countOpen, List.countP_append]

theorem countOpen_zero_of_no_open (trades : List Trade) (m : String)
    (h : ¬ (has_open_position trades m = true)) : countOpen trades m = 0 := by
  unfold countOpen
  rw [List.countP_eq_zero]
  intro a ha hp
  exact h (List.any_eq_true.mpr ⟨a, ha, hp⟩)

theorem open_position_trades (s : TraderState) (newId market_id : String) (yes_price : ℚ)
    (question strategy : String) (now : Nat) :
    (open_position s newId market_id yes_price question strategy now).2.trades
      = s.trades ++ [(open_position s newId market_id yes_price question strategy now).1] :=
  rfl

/-- C3 (amended): contrarian and late-entry opens are each preceded by
the market-level guard `has_open_position` (which ignores strategy and
timeframe — stored positions carry no timeframe field), and the
guarded open loop preserves the invariant that at most one OPEN
position exists per market id. -/
theorem run_opens_single_open (ops : List Opp) :
    ∀ (s : TraderState) (n now : Nat),
      (∀ m, countOpen s.trades m ≤ 1) →
      ∀ m, countOpen (run_opens s ops n now).1.trades m ≤ 1 := by
  induction ops with
  | nil =>
    intro s n now h m
    exact h m
  | cons o rest ih =>
    intro s n now h m
    rw [run_opens]
    by_cases hg : has_open_position s.trades o.market_id = true
    · rw [if_pos hg]
      exact ih s n now h m
    · rw [if_neg hg]
      apply ih
      intro m'
      rw [open_position_trades, countOpen_append]
      have hone : countOpen
          [(open_position s (freshId n) o.market_id o.yes_price o.question o.strategy now).1] m'
          = if o.market_id = m' then 1 else 0 := by
        simp only [countOpen, List.countP_cons, List.countP_nil, Nat.zero_add]
        by_cases hm : o.market_id = m'
        · rw [if_pos hm]
          simp [open_position, hm]
        · rw [if_neg hm]
          simp [open_position, hm]
      rw [hone]
      by_cases hm : o.market_id = m'
      · rw [if_pos hm]
        have h0 : countOpen s.trades m' = 0 := hm ▸ countOpen_zero_of_no_open s.trades o.market_id hg
        omega
      · rw [if_neg hm]
        have := h m'
        omega

/-- An empty trader state. -/
def emptyState : TraderState := { trades := [], breakers := [], win_rate := 1/2 }

/-- A late-entry opportunity for market "m1". -/
def exOpp : Opp :=
  { market_id := "m1", question := "q", yes_price := 1/4, strategy := "Late Entry" }

/-- Witness for C3's amended theorem: one guarded open on an empty
store leaves at most one OPEN position on its market. -/
theorem run_opens_single_open_witness :
    countOpen (run_opens emptyState [exOpp] 0 0).1.trades "m1" ≤ 1 :=
  run_opens_single_open [exOpp] emptyState 0 0 (fun m => by simp [countOpen, emptyState]) "m1"

/-- A pre-existing OPEN arbitrage position on market "m1". -/
def arbTrade : Trade :=
  { id := "a0", market_id := "m1", question := "Arb: m1 vs m2",
    strategy := "Arbitrage", entry_price := 1/4, entry_time := 0, position_size := 10,
    exit_price := none, exit_time := none, pnl := none, status := TradeStatus.OPEN }

/-- A trader state already holding `arbTrade`, with no breaker
records. -/
def arbState : TraderState := { trades := [arbTrade], breakers := [], win_rate := 1/2 }

/-- An arbitrage opportunity whose long leg is market "m1". -/
def exArb : Arb := { market_1 := "m1", market_2 := "m2", long := "m1", entry_price := 1/4 }

/-- C3 (counterexample): the arbitrage branch of the cycle opens with
no duplicate-position check, so one cycle step leaves two OPEN
positions with the same strategy, market id and question — the
single-open invariant is violated and no check precedes the open. -/
theorem arb_double_open_counterexample :
    ((execute_opportunities arbState [] [] [exArb] 0 7).1.trades.countP
        (fun t => decide (t.strategy = "Arbitrage" ∧ t.market_id = "m1" ∧
          t.question = "Arb: m1 vs m2" ∧ t.status = TradeStatus.OPEN))) = 2 ∧
    ¬ (2 ≤ 1) := by
  constructor
  · decide
  · decide

/-! ### Cycle-level exit evaluation -/

/-- A tripped, unexpired breaker record. -/
def c5Breaker : BreakerState :=
  { consecutive_losses := 3, circuit_broken := true, broken_until := some 1000000 }

/-- A breaker store with all three strategies tripped. -/
def c5Breakers : BreakerMap :=
  [("AI Contrarian", c5Breaker), ("Late Entry", c5Breaker), ("Arbitrage", c5Breaker)]

/-- A trader state with one OPEN contrarian position and every breaker
active. -/
def c5State : TraderState :=
  { trades := [exTrade], breakers := c5Breakers, win_rate := 1/2 }

/-- A price oracle reporting 0.90 for every market. -/
def c5Price : String → Option ℚ := fun _ => some (9/10)

/-- C5 (counterexample): with every strategy's breaker active, the
cycle returns before `check_sell_signals`, so an OPEN position whose
market price 0.90 exceeds its 0.70 exit threshold is left OPEN — exits
are not evaluated when all breakers are active. -/
theorem cycle_all_breakers_skip_exits :
    (run_trading_cycle c5State 14 true [] [] [] c5Price 0 0).trades = c5State.trades ∧
    ((run_trading_cycle c5State 14 true [] [] [] c5Price 0 0).trades.countP
        (fun t => decide (t.status = TradeStatus.CLOSED))) = 0 ∧
    c5Price exTrade.market_id = some (9/10) ∧
    sell_threshold exTrade.strategy < 9/10 ∧
    exTrade.status = TradeStatus.OPEN ∧
    c5State.trades = [exTrade] := by
  refine ⟨rfl, by decide, rfl, ?_, rfl, rfl⟩
  show sell_threshold "AI Contrarian" < 9/10
  rw [show sell_threshold "AI Contrarian" = 7/10 from rfl]
  norm_num

/-- C5 (amended): exit evaluation is gated, not unconditional — when
the cycle passes the trading-window check, not all three breakers are
active and market data is available, it ends by evaluating exits on
every OPEN position via `check_sell_signals`; but when all three
breakers are active it returns right after the breaker scan, skipping
exit evaluation entirely (likewise outside the trading window or with
no market data). -/
theorem cycle_exits_gated (s : TraderState) (hour : Nat) (marketsAvailable : Bool)
    (contrarian late_entry : List Opp) (arbitrage : List Arb)
    (priceOf : String → Option ℚ) (n now : Nat)
    (bC bL bA : Bool) (cb' : BreakerMap)
    (hallow : is_trading_allowed hour = true)
    (hscan : cycle_breaker_scan s.breakers now = ((bC, bL, bA), cb')) :
    ((bC && bL && bA) = false → marketsAvailable = true →
      run_trading_cycle s hour marketsAvailable contrarian late_entry arbitrage priceOf n now
        = check_sell_signals
            (execute_opportunities { s with breakers := cb' }
              contrarian late_entry arbitrage n now).1
            priceOf now) ∧
    ((bC && bL && bA) = true →
      run_trading_cycle s hour marketsAvailable contrarian late_entry arbitrage priceOf n now
        = { s with breakers := cb' }) := by
  unfold run_trading_cycle
  simp only [hallow, hscan]
  constructor
  · intro hb hm
    simp [hb, hm]
  · intro hb
    simp [hb]

/-- Witness for C5's amended theorem: the all-breakers-active branch
at the concrete state. -/
theorem cycle_exits_gated_witness :
    run_trading_cycle c5State 14 true [] [] [] c5Price 0 0
      = { c5State with breakers := c5Breakers } :=
  (cycle_exits_gated c5State 14 true [] [] [] c5Price 0 0 true true true c5Breakers
    (by decide) (by decide)).2 rfl

end Polymarket
